import Mathlib

/-!
Verification development for the entity-identity repository.

The Merkle accumulator, the API route handlers and the policy engine are
shallowly embedded as executable Lean functions over `Nat` field elements.
The Poseidon hash, the EdDSA signing primitive and the Groth16 checker are
external capabilities; they appear as function parameters (`h`, `sign`) or
as a boolean outcome (`cryptoOk`).
-/

namespace EI

/-! ## IncrementalMerkleTree (API server, class MerkleTree) -/

/-- Zero values of the tree: zeros[0] = 0, zeros[i] = hash(zeros[i-1], zeros[i-1])
(MerkleTree constructor). -/
def zeros (h : Nat → Nat → Nat) : Nat → Nat
  | 0 => 0
  | i + 1 => h (zeros h i) (zeros h i)

/-- One pass of the layer-building loop body in MerkleTree rebuild: pairs of the
current layer are hashed, an unpaired last element is hashed with the zero value
of its level. -/
def pairUp (h : Nat → Nat → Nat) (z : Nat) : List Nat → List Nat
  | [] => []
  | [a] => [h a z]
  | a :: b :: rest => h a b :: pairUp h z rest

/-- One level step of MerkleTree rebuild: build the next layer; when it comes out
empty the code pushes the zero value of the next level. -/
def nextL (h : Nat → Nat → Nat) (z : Nat → Nat) (level : Nat) (cur : List Nat) : List Nat :=
  match pairUp h (z level) cur with
  | [] => [z (level + 1)]
  | x :: xs => x :: xs

/-- The list of layers produced by MerkleTree rebuild, starting from a given
level with a given number of remaining levels. -/
def layersFrom (h : Nat → Nat → Nat) (z : Nat → Nat) : Nat → Nat → List Nat → List (List Nat)
  | _, 0, cur => [cur]
  | level, fuel + 1, cur => cur :: layersFrom h z (level + 1) fuel (nextL h z level cur)

/-- The layers of a rebuilt tree: layer 0 is the leaf list, then depth levels up. -/
def layers (h : Nat → Nat → Nat) (depth : Nat) (leaves : List Nat) : List (List Nat) :=
  layersFrom h (zeros h) 0 depth leaves

/-- MerkleTree.getRoot. In every reachable tree state the layer stack is either
empty (fresh or reset tree, necessarily with no leaves) or rebuilt from the
current leaves, so the empty-layer branch of the source coincides with the
empty-leaf test here. -/
def getRoot (h : Nat → Nat → Nat) (depth : Nat) (leaves : List Nat) : Nat :=
  if leaves.isEmpty then zeros h depth
  else ((layers h depth leaves).getLastD []).headD 0

/-- Sibling lookup of MerkleTree.getProof: the entry of the layer when the level
and the sibling index are in range, the zero value of the level otherwise. -/
def sibAt (lys : List (List Nat)) (z : Nat → Nat) (level sibIdx : Nat) : Nat :=
  match lys[level]? with
  | some layer => layer.getD sibIdx (z level)
  | none => z level

/-- The level loop of MerkleTree.getProof: one (sibling, isRight) pair per level,
isRight = 1 when the running index is odd, then the index halves. -/
def proofGo (sibf : Nat → Nat → Nat) : Nat → Nat → Nat → List (Nat × Nat)
  | _, 0, _ => []
  | level, fuel + 1, idx =>
    if idx % 2 = 1 then
      (sibf level (idx - 1), 1) :: proofGo sibf (level + 1) fuel (idx / 2)
    else
      (sibf level (idx + 1), 0) :: proofGo sibf (level + 1) fuel (idx / 2)

/-- MerkleTree.getProof over a rebuilt tree, as the list of
(pathElement, pathIndex) pairs. -/
def getProof (h : Nat → Nat → Nat) (depth : Nat) (leaves : List Nat) (index : Nat) :
    List (Nat × Nat) :=
  proofGo (sibAt (layers h depth leaves) (zeros h)) 0 depth index

/-- MerkleTree.addLeaf: append at the next free index, return the index and the
new leaf list (the tree is then rebuilt from that list). -/
def addLeaf (leaves : List Nat) (leaf : Nat) : Nat × List Nat :=
  (leaves.length, leaves ++ [leaf])

/-- The hash-fold of the claims and of the circuit MerkleTreeVerifier: walk the
proof pairs, hashing (sibling, current) when isRight = 1 and (current, sibling)
when isRight = 0. -/
def foldProof (h : Nat → Nat → Nat) (leaf : Nat) (path : List (Nat × Nat)) : Nat :=
  path.foldl (fun cur pe => if pe.2 = 1 then h pe.1 cur else h cur pe.1) leaf

/-- Mathematical node value of the padded tree: node l j is the subtree hash over
leaf positions j * 2^l .. (j+1) * 2^l - 1, with missing leaves read as 0. -/
def node (h : Nat → Nat → Nat) (leaves : List Nat) : Nat → Nat → Nat
  | 0, j => leaves.getD j 0
  | l + 1, j => h (node h leaves l (2 * j)) (node h leaves l (2 * j + 1))

/-- Iterated layer construction: the layer reached after k level steps starting
at a given level. -/
def layerIterFrom (h : Nat → Nat → Nat) (z : Nat → Nat) : Nat → Nat → List Nat → List Nat
  | _, 0, cur => cur
  | level, k + 1, cur => layerIterFrom h z (level + 1) k (nextL h z level cur)

/-! ## Entity types (API server, EntityTypes table) -/

/-- One row of the fixed entity type table. -/
structure EType where
  key : String
  code : Nat
  name : String
  phonetic : String
deriving DecidableEq

/-- The fixed type table of the API server. -/
def EntityTypes : List EType :=
  [⟨"AI.CA", 0x0101, "Conversational Agent", "Kah"⟩,
   ⟨"AI.PO", 0x0102, "Program Orchestrator", "Poe"⟩,
   ⟨"AI.WS", 0x0103, "Web Site", "Wiz"⟩,
   ⟨"AI.OS", 0x0104, "Operating System", "Aus"⟩,
   ⟨"AI.GN", 0x0105, "Generative Model", "Jen"⟩,
   ⟨"AI.AA", 0x0106, "Autonomous Agent", "Ahh"⟩,
   ⟨"AR.RB", 0x0201, "Robot Bot", "Rob"⟩,
   ⟨"AR.DR", 0x0202, "Drone", "Dar"⟩,
   ⟨"AR.VH", 0x0203, "Vehicle", "Vee"⟩,
   ⟨"HU.US", 0x0301, "Human User", "Who"⟩,
   ⟨"HY.CP", 0x0401, "Copilot", "Kip"⟩,
   ⟨"HY.HS", 0x0402, "Hive Swarm", "His"⟩]

/-- Lookup of the own properties of the EntityTypes object literal by key. -/
def lookupType (k : String) : Option EType :=
  EntityTypes.find? (fun t => t.key == k)

/-- The inherited Object.prototype property keys of a JS object literal. A
property read EntityTypes[k] for any of these keys yields the inherited value
(a function, or the prototype object for __proto__), all of which are truthy. -/
def objectProtoKeys : List String :=
  ["constructor", "hasOwnProperty", "isPrototypeOf", "propertyIsEnumerable",
   "toLocaleString", "toString", "valueOf", "__defineGetter__", "__defineSetter__",
   "__lookupGetter__", "__lookupSetter__", "__proto__"]

/-- Truthiness of the property read EntityTypes[k] in the attest route guard
(the negation of !EntityTypes[k]): truthy for the 12 own table keys and for
every inherited Object.prototype key. -/
def typeLookupTruthy (k : String) : Bool :=
  (lookupType k).isSome || objectProtoKeys.contains k

/-- The reverse lookup of the verify route: first table entry whose code equals
the claimed type code. -/
def typeByCode (c : Nat) : Option EType :=
  EntityTypes.find? (fun t => t.code == c)

/-! ## Server state and route handlers (API server) -/

/-- One attester row of the attesters table; revoked models a non-null
revoked_at column. -/
structure Attester where
  id : String
  name : String
  pubX : Nat
  pubY : Nat
  privKey : Nat
  merkleIndex : Nat
  allowedTypes : List String
  apiKeyHash : String
  revoked : Bool
deriving DecidableEq

/-- Default attester row used only as a List.getD fallback. -/
def dfltAttester : Attester :=
  ⟨"", "", 0, 0, 0, 0, [], "", false⟩

/-- Durable server state together with the in-memory attester tree leaves:
attester rows, nullifier rows (nullifier, context, domain), the tree leaf list,
the stored registry root and the audit log (action, attester id). -/
structure ServerState where
  attesters : List Attester
  nullifiers : List (String × String × String)
  treeLeaves : List Nat
  registryRoot : Nat
  auditLog : List (String × String)
deriving DecidableEq

/-- The SELECT of the nullifier table by primary key returns a row. -/
def nullifierPresent (s : ServerState) (n : String) : Bool :=
  s.nullifiers.any (fun e => e.1 == n)

/-- The five public signals of a well-formed verify request, in the fixed order
nullifier, entityCommitment, claimedType, attestersRoot, contextId. The claimed
type is the parseInt image and the embedded root is the numeric value compared
against the current root. -/
structure PublicSignals where
  nullifier : String
  entityCommitment : String
  claimedType : Nat
  attestersRoot : Nat
  contextId : String
deriving DecidableEq

/-- Outcome of POST /api/v1/verify on a well-formed request with the
verification key loaded. An accepted response carries valid = true together
with the resolved entityType key, its display name and the nullifier status. -/
inductive VerifyResult where
  | proofInvalid
  | rootMismatch
  | accepted (entityType : Option String) (entityTypeName : Option String)
      (nullifierStatus : String)
deriving DecidableEq

/-- POST /api/v1/verify. cryptoOk is the outcome of the external Groth16 check
(false also covers the throw branch, which yields the same proof_invalid
error). The route only reads state. -/
def verifyHandler (h : Nat → Nat → Nat) (depth : Nat) (cryptoOk : Bool)
    (sig : PublicSignals) (s : ServerState) : VerifyResult × ServerState :=
  if !cryptoOk then (.proofInvalid, s)
  else if sig.attestersRoot ≠ getRoot h depth s.treeLeaves then (.rootMismatch, s)
  else
    (.accepted ((typeByCode sig.claimedType).map (fun t => t.key))
      ((typeByCode sig.claimedType).map (fun t => t.name))
      (if nullifierPresent s sig.nullifier then "used" else "new"), s)

/-- Outcome of POST /api/v1/verify/record. -/
inductive RecordResult where
  | invalidRequest
  | nullifierUsed
  | recorded
deriving DecidableEq

/-- POST /api/v1/verify/record: reject a missing nullifier, reject a nullifier
that already has a row, otherwise insert the row. -/
def recordHandler (n ctx dom : String) (s : ServerState) : RecordResult × ServerState :=
  if n = "" then (.invalidRequest, s)
  else if nullifierPresent s n then (.nullifierUsed, s)
  else (.recorded, { s with nullifiers := s.nullifiers ++ [(n, ctx, dom)] })

/-- Outcome of POST /api/v1/attest for an authenticated attester.
internalError is the uncaught TypeError of BigInt(undefined), answered by the
default Express error handler with status 500. -/
inductive AttestResult where
  | unauthorized
  | invalidType
  | forbidden
  | internalError
  | ok (signature : Nat) (merkleProof : List (Nat × Nat)) (registryRoot : Nat)
deriving DecidableEq

/-- POST /api/v1/attest. The attesterAuth middleware resolves the attester by
api key hash among non-revoked rows. The handler then guards on
!EntityTypes[entityType]: a JS property read that also hits the inherited
Object.prototype keys, so those pass the guard exactly like the 12 own table
keys. Next comes the allowed type list check. Past both guards the route reads
EntityTypes[entityType].code: for an own key it signs hash(commitment, code)
with the resolved key and returns the signature, the current Merkle proof of
the attester and the current root; for an inherited key the code field is
undefined and BigInt(undefined) throws, an uncaught internal error. The entity
commitment arrives here as a parsed field element and sign is the external
signing capability. -/
def attestHandler (h : Nat → Nat → Nat) (sign : Nat → Nat → Nat) (depth : Nat)
    (apiKeyHash : String) (entityCommitment : Nat) (entityType : String)
    (s : ServerState) : AttestResult × ServerState :=
  match s.attesters.find? (fun a => a.apiKeyHash == apiKeyHash && !a.revoked) with
  | none => (.unauthorized, s)
  | some att =>
    if !typeLookupTruthy entityType then (.invalidType, s)
    else if !att.allowedTypes.contains entityType then (.forbidden, s)
    else
      match lookupType entityType with
      | some ty =>
        (.ok (sign att.privKey (h entityCommitment ty.code))
          (getProof h depth s.treeLeaves att.merkleIndex)
          (getRoot h depth s.treeLeaves),
         { s with auditLog := s.auditLog ++ [("attest", att.id)] })
      | none => (.internalError, s)

/-- Outcome of POST /api/v1/admin/attesters. -/
inductive RegisterResult where
  | invalidRequest
  | alreadyExists
  | ok (index : Nat) (registryRoot : Nat)
deriving DecidableEq

/-- POST /api/v1/admin/attesters: reject missing fields, reject a duplicate id
(over all rows, revoked ones included), otherwise add the leaf
hash(pubX, pubY) to the tree, store the row with the returned index and update
the durable root. The generated keypair and api key arrive as capability
outputs. -/
def registerHandler (h : Nat → Nat → Nat) (depth : Nat) (id name : String)
    (allowedTypes : List String) (pubX pubY priv : Nat) (apiKeyHash : String)
    (s : ServerState) : RegisterResult × ServerState :=
  if id = "" || name = "" then (.invalidRequest, s)
  else if s.attesters.any (fun a => a.id == id) then (.alreadyExists, s)
  else
    (.ok s.treeLeaves.length (getRoot h depth (addLeaf s.treeLeaves (h pubX pubY)).2),
     { s with
        treeLeaves := (addLeaf s.treeLeaves (h pubX pubY)).2,
        registryRoot := getRoot h depth (addLeaf s.treeLeaves (h pubX pubY)).2,
        attesters := s.attesters ++
          [⟨id, name, pubX, pubY, priv, s.treeLeaves.length, allowedTypes, apiKeyHash, false⟩],
        auditLog := s.auditLog ++ [("attester_created", id)] })

/-- Mark every row with the given id as revoked (the UPDATE .. SET revoked_at
by id). -/
def markRevoked (ats : List Attester) (id : String) : List Attester :=
  ats.map (fun a => if a.id == id then { a with revoked := true } else a)

/-- Comparison used by ORDER BY merkle_index. -/
def byIndexLe (a b : Attester) : Prop :=
  a.merkleIndex ≤ b.merkleIndex

instance : DecidableRel byIndexLe :=
  fun a b => Nat.decLe a.merkleIndex b.merkleIndex

/-- The SELECT of active attesters ordered by merkle_index (a stable sort,
matching the ORDER BY). -/
def activeSorted (ats : List Attester) : List Attester :=
  List.insertionSort byIndexLe (ats.filter (fun a => !a.revoked))

/-- The per-survivor UPDATE attesters SET merkle_index = i WHERE id = aid. -/
def setIndex (ats : List Attester) (aid : String) (i : Nat) : List Attester :=
  ats.map (fun a => if a.id == aid then { a with merkleIndex := i } else a)

/-- The reindex loop of the revoke route: apply the index updates in order. -/
def applyUpdates (ats : List Attester) (upds : List (Nat × Attester)) : List Attester :=
  upds.foldl (fun acc p => setIndex acc p.2.id p.1) ats

/-- The tree rebuild loop of the revoke route: reset the tree, then addLeaf the
hash(pubX, pubY) of every survivor in order. -/
def rebuildLeaves (h : Nat → Nat → Nat) (act : List Attester) : List Nat :=
  act.foldl (fun lvs a => (addLeaf lvs (h a.pubX a.pubY)).2) []

/-- Outcome of DELETE /api/v1/admin/attesters/:id. -/
inductive RevokeResult where
  | notFound
  | revokedOk (registryRoot : Nat)
deriving DecidableEq

/-- DELETE /api/v1/admin/attesters/:id: not found unless an active row with the
id exists; otherwise mark it revoked, rebuild the tree from the surviving
active rows in merkle_index order, persist each new dense index, and update
the durable root. -/
def revokeHandler (h : Nat → Nat → Nat) (depth : Nat) (id : String) (s : ServerState) :
    RevokeResult × ServerState :=
  match s.attesters.find? (fun a => a.id == id && !a.revoked) with
  | none => (.notFound, s)
  | some _ =>
    (.revokedOk (getRoot h depth (rebuildLeaves h (activeSorted (markRevoked s.attesters id)))),
     { s with
        attesters := applyUpdates (markRevoked s.attesters id)
          (activeSorted (markRevoked s.attesters id)).enum,
        treeLeaves := rebuildLeaves h (activeSorted (markRevoked s.attesters id)),
        registryRoot :=
          getRoot h depth (rebuildLeaves h (activeSorted (markRevoked s.attesters id))),
        auditLog := s.auditLog ++ [("attester_revoked", id)] })

/-- GET /api/v1/registry/attesters/:id/proof: none models the 404, otherwise
the response carries the stored index, the leaf and the current proof. -/
def proofRoute (h : Nat → Nat → Nat) (depth : Nat) (id : String) (s : ServerState) :
    Option (Nat × Nat × List (Nat × Nat)) :=
  match s.attesters.find? (fun a => a.id == id && !a.revoked) with
  | none => none
  | some a => some (a.merkleIndex, h a.pubX a.pubY, getProof h depth s.treeLeaves a.merkleIndex)

/-- The state-relevant operations of the server, for stating that the nullifier
ledger only grows. -/
inductive ServerOp where
  | verify (cryptoOk : Bool) (sig : PublicSignals)
  | record (n ctx dom : String)
  | attest (apiKeyHash : String) (entityCommitment : Nat) (entityType : String)
  | register (id name : String) (allowedTypes : List String) (pubX pubY priv : Nat)
      (apiKeyHash : String)
  | revoke (id : String)
deriving DecidableEq

/-- The state transition of one server operation. -/
def applyOp (h : Nat → Nat → Nat) (sign : Nat → Nat → Nat) (depth : Nat) :
    ServerOp → ServerState → ServerState
  | .verify c sig, s => (verifyHandler h depth c sig s).2
  | .record n ctx dom, s => (recordHandler n ctx dom s).2
  | .attest k com t, s => (attestHandler h sign depth k com t s).2
  | .register id name al px py pv k, s => (registerHandler h depth id name al px py pv k s).2
  | .revoke id, s => (revokeHandler h depth id s).2

/-! ## Dual proof policy engine (dual-system.js) -/

/-- InteractionLevel.TYPE_WITH_STANDING. -/
def TYPE_WITH_STANDING : Nat := 2

/-- One public attestation of the PublicTrustRegistry, with the fields the
policy claims refer to. -/
structure PubAttestation where
  entityCommitment : String
  entityType : Nat
  timestamp : Nat
  attestationId : Nat
deriving DecidableEq

/-- PublicTrustRegistry.getAttestationsFor: all attestations of a commitment. -/
def getAttestationsFor (reg : List PubAttestation) (c : String) : List PubAttestation :=
  reg.filter (fun a => a.entityCommitment == c)

/-- The fields of a generated proof package that VerificationPolicy.verify
reads: the level, the revealed type and the attestation count of the
publicStanding block (none models an absent field). -/
structure ProofPackage where
  level : Nat
  revealedType : Option String
  attestationCount : Option Nat
deriving DecidableEq

/-- The package built by the coordinator at level TYPE_WITH_STANDING: the
attestation count is the full count of public attestations of the commitment,
with no regard to their timestamps. -/
def standingPackage (reg : List PubAttestation) (c : String) (claimedType : String) :
    ProofPackage :=
  ⟨TYPE_WITH_STANDING, some claimedType, some (getAttestationsFor reg c).length⟩

/-- VerificationPolicy configuration; none for maxAttestationAge models the
Infinity default. The requiredAttesters and trusted root lists are never read
by verify and are omitted. -/
structure VerificationPolicy where
  minLevel : Nat
  allowedTypes : Option (List String)
  minPublicAttestations : Nat
  maxAttestationAge : Option Nat
deriving DecidableEq

/-- The three error kinds VerificationPolicy.verify can push. -/
inductive PolicyError where
  | levelTooLow
  | typeNotAllowed
  | insufficientAttestations
deriving DecidableEq

/-- The type check of VerificationPolicy.verify: with a restriction in place,
an absent revealed type fails the includes test exactly like a type outside
the list. -/
def typeAllowedCheck (p : VerificationPolicy) (pkg : ProofPackage) : Bool :=
  match p.allowedTypes with
  | none => true
  | some ts =>
    match pkg.revealedType with
    | none => false
    | some t => ts.contains t

/-- The error list collected by VerificationPolicy.verify, in push order:
level check, type check, then the attestation count check at level
TYPE_WITH_STANDING and above (an absent count reads as 0). -/
def policyErrors (p : VerificationPolicy) (pkg : ProofPackage) : List PolicyError :=
  (if pkg.level < p.minLevel then [PolicyError.levelTooLow] else []) ++
  (if typeAllowedCheck p pkg then [] else [PolicyError.typeNotAllowed]) ++
  (if TYPE_WITH_STANDING ≤ pkg.level ∧ pkg.attestationCount.getD 0 < p.minPublicAttestations
   then [PolicyError.insufficientAttestations] else [])

/-- VerificationPolicy.verify: valid holds when no error was pushed. -/
def policyVerify (p : VerificationPolicy) (pkg : ProofPackage) : Bool × List PolicyError :=
  ((policyErrors p pkg).isEmpty, policyErrors p pkg)

/-- From the claim wording: the number of public attestations of a commitment
whose timestamp lies within the window from now - maxAge to now. -/
def countWithinWindow (reg : List PubAttestation) (c : String) (now maxAge : Nat) : Nat :=
  (getAttestationsFor reg c).countP (fun a => now - maxAge ≤ a.timestamp ∧ a.timestamp ≤ now)

/-- Postcondition of a completed revoke of the given id: the revoked id is gone
from the proof route; every survivor, listed in the order of the previous
indices, now carries the dense index equal to its position; the survivors are
exactly the previously active attesters other than the revoked one; the tree
leaves and the durable root are recomputed over exactly the survivors; and with
no survivor left the root is the empty-tree zero value. -/
def revokePost (h : Nat → Nat → Nat) (depth : Nat) (id : String) (s : ServerState) : Prop :=
  proofRoute h depth id (revokeHandler h depth id s).2 = none ∧
  (∀ i, i < (activeSorted (markRevoked s.attesters id)).length →
    ((revokeHandler h depth id s).2.attesters.find?
        (fun a => a.id == ((activeSorted (markRevoked s.attesters id)).getD i dfltAttester).id)) =
      some { (activeSorted (markRevoked s.attesters id)).getD i dfltAttester with
              merkleIndex := i }) ∧
  (activeSorted (markRevoked s.attesters id)).Perm
    (s.attesters.filter (fun a => !(a.id == id) && !a.revoked)) ∧
  (revokeHandler h depth id s).2.treeLeaves =
    (activeSorted (markRevoked s.attesters id)).map (fun a => h a.pubX a.pubY) ∧
  (revokeHandler h depth id s).2.registryRoot =
    getRoot h depth ((activeSorted (markRevoked s.attesters id)).map (fun a => h a.pubX a.pubY)) ∧
  (activeSorted (markRevoked s.attesters id) = [] →
    (revokeHandler h depth id s).2.registryRoot = zeros h depth)

/-- Sample attester row used by concrete witnesses. -/
def attA : Attester :=
  ⟨"a", "Acme", 1, 2, 9, 0, ["AI.CA"], "ka", false⟩

/-- Second sample attester row used by concrete witnesses. -/
def attB : Attester :=
  ⟨"b", "Belle", 3, 4, 9, 1, ["AI.CA", "HU.US"], "kb", false⟩

/-- Sample server state with two active attesters, used by concrete
witnesses. -/
def sampleState : ServerState :=
  ⟨[attA, attB], [], [Nat.pair 1 2, Nat.pair 3 4], 0, []⟩

/-! ## Merkle tree lemmas -/

theorem pairUp_getD (h : Nat → Nat → Nat) (zl : Nat) :
    ∀ (L : List Nat) (j : Nat),
      (pairUp h zl L).getD j (h zl zl) = h (L.getD (2 * j) zl) (L.getD (2 * j + 1) zl)
  | [], j => by simp [pairUp]
  | [a], 0 => by simp [pairUp]
  | [a], j + 1 => by
      have e1 : 2 * (j + 1) = 2 * j + 1 + 1 := by ring
      have e2 : 2 * (j + 1) + 1 = 2 * j + 1 + 1 + 1 := by ring
      simp [pairUp, e1, e2]
  | a :: b :: rest, 0 => by simp [pairUp]
  | a :: b :: rest, j + 1 => by
      have ih := pairUp_getD h zl rest j
      have e1 : 2 * (j + 1) = 2 * j + 1 + 1 := by ring
      have e2 : 2 * (j + 1) + 1 = 2 * j + 1 + 1 + 1 := by ring
      simpa [pairUp, e1, e2] using ih

theorem nextL_getD (h : Nat → Nat → Nat) (level : Nat) (cur : List Nat) (j : Nat) :
    (nextL h (zeros h) level cur).getD j (zeros h (level + 1)) =
      h (cur.getD (2 * j) (zeros h level)) (cur.getD (2 * j + 1) (zeros h level)) := by
  cases cur with
  | nil => cases j <;> rfl
  | cons x xs =>
      have hre : ∃ y ys, pairUp h (zeros h level) (x :: xs) = y :: ys := by
        cases xs with
        | nil => exact ⟨_, _, rfl⟩
        | cons b rest => exact ⟨_, _, rfl⟩
      obtain ⟨y, ys, hre⟩ := hre
      have hn : nextL h (zeros h) level (x :: xs) = pairUp h (zeros h level) (x :: xs) := by
        unfold nextL
        rw [hre]
      rw [hn]
      exact pairUp_getD h (zeros h level) (x :: xs) j

theorem layerIterFrom_succ_top (h : Nat → Nat → Nat) (z : Nat → Nat) :
    ∀ (k level : Nat) (cur : List Nat),
      layerIterFrom h z level (k + 1) cur =
        nextL h z (level + k) (layerIterFrom h z level k cur)
  | 0, level, cur => by simp [layerIterFrom]
  | k + 1, level, cur => by
      show layerIterFrom h z (level + 1) (k + 1) (nextL h z level cur) =
        nextL h z (level + (k + 1)) (layerIterFrom h z (level + 1) k (nextL h z level cur))
      rw [layerIterFrom_succ_top h z k (level + 1) (nextL h z level cur)]
      have e : level + 1 + k = level + (k + 1) := by omega
      rw [e]

theorem layerIter_getD (h : Nat → Nat → Nat) (lvs : List Nat) :
    ∀ (l j : Nat),
      (layerIterFrom h (zeros h) 0 l lvs).getD j (zeros h l) = node h lvs l j
  | 0, j => rfl
  | l + 1, j => by
      rw [layerIterFrom_succ_top h (zeros h) l 0 lvs]
      have e : 0 + l = l := by omega
      rw [e, nextL_getD]
      rw [layerIter_getD h lvs l (2 * j), layerIter_getD h lvs l (2 * j + 1)]
      rfl

theorem layersFrom_getElem (h : Nat → Nat → Nat) (z : Nat → Nat) :
    ∀ (fuel level : Nat) (cur : List Nat) (k : Nat), k ≤ fuel →
      (layersFrom h z level fuel cur)[k]? = some (layerIterFrom h z level k cur)
  | 0, _, _, 0, _ => by simp [layersFrom, layerIterFrom]
  | 0, _, _, _ + 1, hk => absurd hk (by omega)
  | _ + 1, _, _, 0, _ => by simp [layersFrom, layerIterFrom]
  | fuel + 1, level, cur, k + 1, hk => by
      have ih := layersFrom_getElem h z fuel (level + 1) (nextL h z level cur) k (by omega)
      simpa [layersFrom, layerIterFrom] using ih

theorem layersFrom_getLastD (h : Nat → Nat → Nat) (z : Nat → Nat) :
    ∀ (fuel level : Nat) (cur : List Nat) (d : List Nat),
      (layersFrom h z level fuel cur).getLastD d = layerIterFrom h z level fuel cur
  | 0, _, _, _ => rfl
  | fuel + 1, level, cur, d => by
      show (cur :: layersFrom h z (level + 1) fuel (nextL h z level cur)).getLastD d = _
      rw [List.getLastD_cons]
      exact layersFrom_getLastD h z fuel (level + 1) (nextL h z level cur) cur

theorem node_nil (h : Nat → Nat → Nat) : ∀ (l j : Nat), node h [] l j = zeros h l
  | 0, j => by cases j <;> rfl
  | l + 1, j => by
      show h (node h [] l (2 * j)) (node h [] l (2 * j + 1)) = zeros h (l + 1)
      rw [node_nil h l (2 * j), node_nil h l (2 * j + 1)]
      rfl

theorem nextL_ne_nil (h : Nat → Nat → Nat) (z : Nat → Nat) (level : Nat) (cur : List Nat) :
    nextL h z level cur ≠ [] := by
  unfold nextL
  split <;> simp

theorem layerIterFrom_ne_nil (h : Nat → Nat → Nat) (z : Nat → Nat) :
    ∀ (k level : Nat) (cur : List Nat), cur ≠ [] → layerIterFrom h z level k cur ≠ []
  | 0, _, _, hc => hc
  | k + 1, level, cur, _ =>
      layerIterFrom_ne_nil h z k (level + 1) (nextL h z level cur) (nextL_ne_nil h z level cur)

theorem headD_getD (L : List Nat) (a b : Nat) (hL : L ≠ []) : L.headD a = L.getD 0 b := by
  cases L with
  | nil => exact absurd rfl hL
  | cons x xs => rfl

theorem getRoot_eq_node (h : Nat → Nat → Nat) (depth : Nat) (lvs : List Nat) :
    getRoot h depth lvs = node h lvs depth 0 := by
  by_cases hl : lvs = []
  · subst hl
    rw [node_nil]
    simp [getRoot]
  · have hne : ¬(lvs.isEmpty = true) := by simpa using hl
    unfold getRoot layers
    rw [if_neg hne, layersFrom_getLastD,
      headD_getD _ _ (zeros h depth) (layerIterFrom_ne_nil h (zeros h) depth 0 lvs hl)]
    exact layerIter_getD h lvs depth 0

theorem node_take (h : Nat → Nat → Nat) (lvs : List Nat) (m : Nat) :
    ∀ (l j : Nat), (j + 1) * 2 ^ l ≤ m → node h (lvs.take m) l j = node h lvs l j
  | 0, j, hj => by
      show (lvs.take m).getD j 0 = lvs.getD j 0
      have hjm : j < m := by
        have e : (j + 1) * 2 ^ 0 = j + 1 := by simp
        omega
      rw [List.getD_eq_getElem?_getD, List.getD_eq_getElem?_getD, List.getElem?_take,
        if_pos hjm]
  | l + 1, j, hj => by
      have e : (j + 1) * 2 ^ (l + 1) = (2 * j + 1 + 1) * 2 ^ l := by ring
      have h2 : (2 * j + 1 + 1) * 2 ^ l ≤ m := by rw [← e]; exact hj
      have h1 : (2 * j + 1) * 2 ^ l ≤ m :=
        le_trans (Nat.mul_le_mul_right _ (by omega)) h2
      show h (node h (lvs.take m) l (2 * j)) (node h (lvs.take m) l (2 * j + 1)) = _
      rw [node_take h lvs m l (2 * j) h1, node_take h lvs m l (2 * j + 1) h2]
      rfl

theorem fold_proofGo (h : Nat → Nat → Nat) (depth : Nat) (lvs : List Nat)
    (sibf : Nat → Nat → Nat) (hs : ∀ l j, l < depth → sibf l j = node h lvs l j) :
    ∀ (fuel level idx : Nat), level + fuel ≤ depth →
      foldProof h (node h lvs level idx) (proofGo sibf level fuel idx) =
        node h lvs (level + fuel) (idx / 2 ^ fuel)
  | 0, level, idx, _ => by simp [proofGo, foldProof]
  | fuel + 1, level, idx, hle => by
      have hlev : level < depth := by omega
      have ediv : (2 * (idx / 2) + idx % 2) / 2 ^ (fuel + 1) = idx / 2 / 2 ^ fuel := by
        rw [pow_succ', ← Nat.div_div_eq_div_mul]
        congr 1
        omega
      by_cases hodd : idx % 2 = 1
      · have e1 : idx - 1 = 2 * (idx / 2) := by omega
        have e2 : idx = 2 * (idx / 2) + 1 := by omega
        rw [proofGo, if_pos hodd]
        have step : foldProof h (node h lvs level idx)
            ((sibf level (idx - 1), 1) :: proofGo sibf (level + 1) fuel (idx / 2)) =
            foldProof h (h (sibf level (idx - 1)) (node h lvs level idx))
              (proofGo sibf (level + 1) fuel (idx / 2)) := by
          simp [foldProof]
        rw [step, hs level (idx - 1) hlev, e1]
        have hnode : h (node h lvs level (2 * (idx / 2))) (node h lvs level idx) =
            node h lvs (level + 1) (idx / 2) := by
          have hr : node h lvs (level + 1) (idx / 2) =
              h (node h lvs level (2 * (idx / 2))) (node h lvs level (2 * (idx / 2) + 1)) := rfl
          rw [hr, ← e2]
        rw [hnode, fold_proofGo h depth lvs sibf hs fuel (level + 1) (idx / 2) (by omega)]
        have e3 : level + 1 + fuel = level + (fuel + 1) := by omega
        have e4 : idx / 2 / 2 ^ fuel = idx / 2 ^ (fuel + 1) := by
          rw [← ediv]
          congr 1
          omega
        rw [e3, e4]
      · have hev : idx % 2 = 0 := by omega
        have e2 : idx + 1 = 2 * (idx / 2) + 1 := by omega
        rw [proofGo, if_neg hodd]
        have step : foldProof h (node h lvs level idx)
            ((sibf level (idx + 1), 0) :: proofGo sibf (level + 1) fuel (idx / 2)) =
            foldProof h (h (node h lvs level idx) (sibf level (idx + 1)))
              (proofGo sibf (level + 1) fuel (idx / 2)) := by
          simp [foldProof]
        rw [step, hs level (idx + 1) hlev, e2]
        have hnode : h (node h lvs level idx) (node h lvs level (2 * (idx / 2) + 1)) =
            node h lvs (level + 1) (idx / 2) := by
          have e5 : idx = 2 * (idx / 2) := by omega
          have hr : node h lvs (level + 1) (idx / 2) =
              h (node h lvs level (2 * (idx / 2))) (node h lvs level (2 * (idx / 2) + 1)) := rfl
          rw [hr, ← e5]
        rw [hnode, fold_proofGo h depth lvs sibf hs fuel (level + 1) (idx / 2) (by omega)]
        have e3 : level + 1 + fuel = level + (fuel + 1) := by omega
        have e4 : idx / 2 / 2 ^ fuel = idx / 2 ^ (fuel + 1) := by
          rw [← ediv]
          congr 1
          omega
        rw [e3, e4]

theorem sibAt_eq_node (h : Nat → Nat → Nat) (depth : Nat) (lvs : List Nat)
    (l j : Nat) (hl : l ≤ depth) :
    sibAt (layers h depth lvs) (zeros h) l j = node h lvs l j := by
  unfold sibAt layers
  rw [layersFrom_getElem h (zeros h) depth 0 lvs l hl]
  exact layerIter_getD h lvs l j

theorem proofGo_length (sibf : Nat → Nat → Nat) :
    ∀ (fuel level idx : Nat), (proofGo sibf level fuel idx).length = fuel
  | 0, _, _ => rfl
  | fuel + 1, level, idx => by
      by_cases hodd : idx % 2 = 1 <;>
        simp [proofGo, hodd, proofGo_length sibf fuel (level + 1) (idx / 2)]

theorem getProof_length (h : Nat → Nat → Nat) (depth : Nat) (lvs : List Nat) (i : Nat) :
    (getProof h depth lvs i).length = depth :=
  proofGo_length _ depth 0 i

theorem getRoot_take (h : Nat → Nat → Nat) (depth : Nat) (lvs : List Nat) :
    getRoot h depth lvs = getRoot h depth (lvs.take (2 ^ depth)) := by
  rw [getRoot_eq_node, getRoot_eq_node]
  exact (node_take h lvs (2 ^ depth) depth 0 (by simp)).symm

/-- Claim C1, amended: for every depth, every leaf sequence and every added
index below the tree capacity 2 ^ depth, folding the leaf through the proof of
getProof, hashing (sibling, current) on isRight = 1 and (current, sibling) on
isRight = 0, yields exactly getRoot. -/
theorem merkle_fold_root (h : Nat → Nat → Nat) (depth : Nat) (lvs : List Nat) (i : Nat)
    (hi : i < lvs.length) (hcap : i < 2 ^ depth) :
    foldProof h (lvs.getD i 0) (getProof h depth lvs i) = getRoot h depth lvs := by
  have h0 : node h lvs 0 i = lvs.getD i 0 := rfl
  have hfold := fold_proofGo h depth lvs (sibAt (layers h depth lvs) (zeros h))
    (fun l j hl => sibAt_eq_node h depth lvs l j (le_of_lt hl)) depth 0 i (by omega)
  rw [getProof, getRoot_eq_node, ← h0]
  simpa [Nat.div_eq_of_lt hcap] using hfold

/-- Witness for merkle_fold_root at depth 2, leaves [3, 4, 5], index 2. -/
theorem merkle_fold_root_witness :
    (2 : Nat) < ([3, 4, 5] : List Nat).length ∧ (2 : Nat) < 2 ^ 2 ∧
    foldProof Nat.pair (([3, 4, 5] : List Nat).getD 2 0) (getProof Nat.pair 2 [3, 4, 5] 2) =
      getRoot Nat.pair 2 [3, 4, 5] :=
  ⟨by decide, by decide, merkle_fold_root Nat.pair 2 [3, 4, 5] 2 (by decide) (by decide)⟩

/-- Counterexample to claim C1 as stated: with depth 1 and three added leaves,
the proof at the added index 2 folds to a value different from getRoot, so the
quantification over every added index fails once the capacity 2 ^ depth is
exceeded. -/
theorem merkle_fold_root_counterexample :
    2 < ([5, 6, 7] : List Nat).length ∧
    foldProof Nat.pair (([5, 6, 7] : List Nat).getD 2 0) (getProof Nat.pair 1 [5, 6, 7] 2) ≠
      getRoot Nat.pair 1 [5, 6, 7] := by decide

/-- Claim C10: addLeaf always succeeds, appending at the next index, and once
more than 2 ^ depth leaves were added the root equals the root over only the
first 2 ^ depth leaves, silently omitting every later leaf. -/
theorem addLeaf_overflow (h : Nat → Nat → Nat) (depth : Nat) (lvs : List Nat) (v : Nat)
    (hover : 2 ^ depth < (addLeaf lvs v).2.length) :
    (addLeaf lvs v).1 = lvs.length ∧ (addLeaf lvs v).2 = lvs ++ [v] ∧
    getRoot h depth (addLeaf lvs v).2 = getRoot h depth ((addLeaf lvs v).2.take (2 ^ depth)) :=
  ⟨rfl, rfl, getRoot_take h depth _⟩

/-- Witness for addLeaf_overflow at depth 1 with a third leaf added. -/
theorem addLeaf_overflow_witness :
    2 ^ 1 < (addLeaf [1, 2] 3).2.length ∧
    ((addLeaf [1, 2] 3).1 = ([1, 2] : List Nat).length ∧ (addLeaf [1, 2] 3).2 = [1, 2] ++ [3] ∧
      getRoot Nat.pair 1 (addLeaf [1, 2] 3).2 =
        getRoot Nat.pair 1 ((addLeaf [1, 2] 3).2.take (2 ^ 1))) :=
  ⟨by decide, addLeaf_overflow Nat.pair 1 [1, 2] 3 (by decide)⟩

/-! ## Verification route -/

theorem verifyHandler_state (h : Nat → Nat → Nat) (depth : Nat) (c : Bool)
    (sig : PublicSignals) (s : ServerState) : (verifyHandler h depth c sig s).2 = s := by
  unfold verifyHandler
  split
  · rfl
  · split
    · rfl
    · rfl

/-- Claim C2, amended: a verification request that passes the cryptographic
check but embeds an attestersRoot different from the current registry root is
rejected with the root mismatch error; the cryptographic check runs first, so
a cryptographically invalid proof with a stale root is rejected as
proof_invalid instead. -/
theorem verify_stale_root (h : Nat → Nat → Nat) (depth : Nat) (sig : PublicSignals)
    (s : ServerState) (hstale : sig.attestersRoot ≠ getRoot h depth s.treeLeaves) :
    verifyHandler h depth true sig s = (.rootMismatch, s) := by
  simp [verifyHandler, hstale]

/-- Witness for verify_stale_root on an empty registry and the stale root
12345. -/
theorem verify_stale_root_witness :
    (PublicSignals.mk "n1" "c1" 257 12345 "ctx").attestersRoot ≠
      getRoot Nat.pair 2 (ServerState.mk [] [] [] 0 []).treeLeaves ∧
    verifyHandler Nat.pair 2 true (PublicSignals.mk "n1" "c1" 257 12345 "ctx")
        (ServerState.mk [] [] [] 0 []) =
      (.rootMismatch, ServerState.mk [] [] [] 0 []) :=
  ⟨by decide, verify_stale_root Nat.pair 2 _ _ (by decide)⟩

/-- Counterexample to claim C2 as stated: a request with a stale embedded root
that fails the cryptographic check is rejected with proof_invalid, not with the
root mismatch error, so the rejection kind is not independent of cryptographic
validity. -/
theorem verify_stale_root_counterexample :
    (PublicSignals.mk "n1" "c1" 257 12345 "ctx").attestersRoot ≠
      getRoot Nat.pair 2 (ServerState.mk [] [] [] 0 []).treeLeaves ∧
    (verifyHandler Nat.pair 2 false (PublicSignals.mk "n1" "c1" 257 12345 "ctx")
        (ServerState.mk [] [] [] 0 [])).1 = .proofInvalid ∧
    VerifyResult.proofInvalid ≠ .rootMismatch := by decide

/-- Claim C8: the verify route mutates no state. Its resulting state is the
input state for every input, and repeating the call on that state returns the
identical response. -/
theorem verify_pure (h : Nat → Nat → Nat) (depth : Nat) (c : Bool) (sig : PublicSignals)
    (s : ServerState) :
    (verifyHandler h depth c sig s).2 = s ∧
    verifyHandler h depth c sig ((verifyHandler h depth c sig s).2) =
      verifyHandler h depth c sig s := by
  refine ⟨verifyHandler_state h depth c sig s, ?_⟩
  rw [verifyHandler_state h depth c sig s]

/-- Claim C9: a cryptographically valid proof whose embedded root matches the
current root is accepted with valid = true even though its claimed type code
9999 matches no entry of the fixed type table; the responded entityType is
null. The verify route performs no type validity check. -/
theorem verify_unknown_type_accepted :
    typeByCode 9999 = none ∧
    zeros Nat.pair 2 = getRoot Nat.pair 2 (ServerState.mk [] [] [] 0 []).treeLeaves ∧
    verifyHandler Nat.pair 2 true (PublicSignals.mk "n" "c" 9999 (zeros Nat.pair 2) "ctx")
        (ServerState.mk [] [] [] 0 []) =
      (.accepted none none "new", ServerState.mk [] [] [] 0 []) := by decide

/-! ## Nullifier ledger -/

theorem attestHandler_nullifiers (h : Nat → Nat → Nat) (sign : Nat → Nat → Nat) (depth : Nat)
    (k : String) (com : Nat) (t : String) (s : ServerState) :
    (attestHandler h sign depth k com t s).2.nullifiers = s.nullifiers := by
  unfold attestHandler
  split
  · rfl
  · split
    · rfl
    · split
      · rfl
      · split
        · rfl
        · rfl

theorem registerHandler_nullifiers (h : Nat → Nat → Nat) (depth : Nat) (id name : String)
    (al : List String) (px py pv : Nat) (k : String) (s : ServerState) :
    (registerHandler h depth id name al px py pv k s).2.nullifiers = s.nullifiers := by
  unfold registerHandler
  split
  · rfl
  · split
    · rfl
    · rfl

theorem revokeHandler_nullifiers (h : Nat → Nat → Nat) (depth : Nat) (id : String)
    (s : ServerState) : (revokeHandler h depth id s).2.nullifiers = s.nullifiers := by
  unfold revokeHandler
  split
  · rfl
  · rfl

/-- Claim C3: recording a nullifier fails with the nullifier-used conflict
exactly when the nullifier already has a ledger row; a successful record
inserts the row, after which a repeated record fails, an accepted verify
reports the status used, and no server operation ever removes the row. -/
theorem record_nullifier_once (h : Nat → Nat → Nat) (sign : Nat → Nat → Nat) (depth : Nat)
    (s : ServerState) (n ctx dom : String) (hn : n ≠ "") :
    ((recordHandler n ctx dom s).1 = .nullifierUsed ↔ nullifierPresent s n = true) ∧
    ((recordHandler n ctx dom s).1 = .recorded →
      nullifierPresent (recordHandler n ctx dom s).2 n = true ∧
      (recordHandler n ctx dom ((recordHandler n ctx dom s).2)).1 = .nullifierUsed) ∧
    (nullifierPresent s n = true → (recordHandler n ctx dom s).1 = .nullifierUsed) ∧
    (∀ (cok : Bool) (sig : PublicSignals) (et etn : Option String) (st : String),
      nullifierPresent s n = true → sig.nullifier = n →
      (verifyHandler h depth cok sig s).1 = .accepted et etn st → st = "used") ∧
    (∀ op : ServerOp, nullifierPresent s n = true →
      nullifierPresent (applyOp h sign depth op s) n = true) := by
  have hfail : ∀ s2 : ServerState, nullifierPresent s2 n = true →
      (recordHandler n ctx dom s2).1 = .nullifierUsed := by
    intro s2 hp2
    simp [recordHandler, hn, hp2]
  refine ⟨?_, ?_, ?_, ?_, ?_⟩
  · by_cases hp : nullifierPresent s n = true <;> simp [recordHandler, hn, hp]
  · intro hrec
    by_cases hp : nullifierPresent s n = true
    · simp [recordHandler, hn, hp] at hrec
    · have hsnd : (recordHandler n ctx dom s).2 =
          { s with nullifiers := s.nullifiers ++ [(n, ctx, dom)] } := by
        simp [recordHandler, hn, hp]
      have hpres : nullifierPresent (recordHandler n ctx dom s).2 n = true := by
        rw [hsnd]
        simp [nullifierPresent]
      exact ⟨hpres, hfail _ hpres⟩
  · intro hp
    exact hfail s hp
  · intro cok sig et etn st hp hsn heq
    cases cok with
    | false => simp [verifyHandler] at heq
    | true =>
      by_cases hr : sig.attestersRoot = getRoot h depth s.treeLeaves
      · simp [verifyHandler, hr, hsn, hp] at heq
        exact heq.2.2.symm
      · simp [verifyHandler, hr] at heq
  · intro op hp
    cases op with
    | verify c sig => simpa [applyOp, verifyHandler_state] using hp
    | record m c d =>
        by_cases hm : m = ""
        · simpa [applyOp, recordHandler, hm] using hp
        · by_cases hq : nullifierPresent s m = true
          · simpa [applyOp, recordHandler, hm, hq] using hp
          · have hsnd2 : (recordHandler m c d s).2 =
                { s with nullifiers := s.nullifiers ++ [(m, c, d)] } := by
              simp [recordHandler, hm, hq]
            show nullifierPresent (recordHandler m c d s).2 n = true
            rw [hsnd2]
            simp only [nullifierPresent, List.any_append] at hp ⊢
            simp [hp]
    | attest k com t =>
        have := attestHandler_nullifiers h sign depth k com t s
        simpa [applyOp, nullifierPresent, this] using hp
    | register id name al px py pv k =>
        have := registerHandler_nullifiers h depth id name al px py pv k s
        simpa [applyOp, nullifierPresent, this] using hp
    | revoke id =>
        have := revokeHandler_nullifiers h depth id s
        simpa [applyOp, nullifierPresent, this] using hp

/-- Witness for record_nullifier_once on an empty ledger and nullifier n7. -/
theorem record_nullifier_once_witness :
    ("n7" : String) ≠ "" ∧
    (((recordHandler "n7" "ctx" "dom" (ServerState.mk [] [] [] 0 [])).1 = .nullifierUsed ↔
        nullifierPresent (ServerState.mk [] [] [] 0 []) "n7" = true) ∧
      ((recordHandler "n7" "ctx" "dom" (ServerState.mk [] [] [] 0 [])).1 = .recorded →
        nullifierPresent (recordHandler "n7" "ctx" "dom" (ServerState.mk [] [] [] 0 [])).2 "n7" =
          true ∧
        (recordHandler "n7" "ctx" "dom"
            ((recordHandler "n7" "ctx" "dom" (ServerState.mk [] [] [] 0 [])).2)).1 =
          .nullifierUsed) ∧
      (nullifierPresent (ServerState.mk [] [] [] 0 []) "n7" = true →
        (recordHandler "n7" "ctx" "dom" (ServerState.mk [] [] [] 0 [])).1 = .nullifierUsed) ∧
      (∀ (cok : Bool) (sig : PublicSignals) (et etn : Option String) (st : String),
        nullifierPresent (ServerState.mk [] [] [] 0 []) "n7" = true → sig.nullifier = "n7" →
        (verifyHandler Nat.pair 2 cok sig (ServerState.mk [] [] [] 0 [])).1 =
          .accepted et etn st → st = "used") ∧
      (∀ op : ServerOp, nullifierPresent (ServerState.mk [] [] [] 0 []) "n7" = true →
        nullifierPresent (applyOp Nat.pair Nat.pair 2 op (ServerState.mk [] [] [] 0 [])) "n7" =
          true)) :=
  ⟨by decide,
    record_nullifier_once Nat.pair Nat.pair 2 (ServerState.mk [] [] [] 0 []) "n7" "ctx" "dom"
      (by decide)⟩

/-! ## Policy engine -/

/-- Claim C7: at level TypeWithStanding, with the level and type checks
passing, evaluate reports valid = false when the attestation count is strictly
below minPublicAttestations and valid = true when the count equals it, so the
boundary is inclusive. Evaluate is a total function and never throws. -/
theorem policy_standing_boundary (p : VerificationPolicy) (pkg : ProofPackage)
    (hlv : pkg.level = TYPE_WITH_STANDING) (hmin : p.minLevel ≤ pkg.level)
    (ht : typeAllowedCheck p pkg = true) :
    (pkg.attestationCount.getD 0 < p.minPublicAttestations →
      (policyVerify p pkg).1 = false) ∧
    (pkg.attestationCount.getD 0 = p.minPublicAttestations →
      (policyVerify p pkg).1 = true) := by
  have h2 : TYPE_WITH_STANDING ≤ pkg.level := le_of_eq hlv.symm
  have hml : ¬pkg.level < p.minLevel := Nat.not_lt.mpr hmin
  constructor
  · intro hlt
    simp [policyVerify, policyErrors, ht, h2, hlt, hml]
  · intro heq
    simp [policyVerify, policyErrors, ht, h2, hml, heq]

/-- Witness for policy_standing_boundary with minPublicAttestations = 3 and a
package holding exactly 3 attestations. -/
theorem policy_standing_boundary_witness :
    (ProofPackage.mk 2 (some "AI.CA") (some 3)).level = TYPE_WITH_STANDING ∧
    (VerificationPolicy.mk 2 none 3 none).minLevel ≤
      (ProofPackage.mk 2 (some "AI.CA") (some 3)).level ∧
    typeAllowedCheck (VerificationPolicy.mk 2 none 3 none)
      (ProofPackage.mk 2 (some "AI.CA") (some 3)) = true ∧
    (((ProofPackage.mk 2 (some "AI.CA") (some 3)).attestationCount.getD 0 <
        (VerificationPolicy.mk 2 none 3 none).minPublicAttestations →
      (policyVerify (VerificationPolicy.mk 2 none 3 none)
        (ProofPackage.mk 2 (some "AI.CA") (some 3))).1 = false) ∧
    ((ProofPackage.mk 2 (some "AI.CA") (some 3)).attestationCount.getD 0 =
        (VerificationPolicy.mk 2 none 3 none).minPublicAttestations →
      (policyVerify (VerificationPolicy.mk 2 none 3 none)
        (ProofPackage.mk 2 (some "AI.CA") (some 3))).1 = true)) :=
  ⟨by decide, by decide, by decide,
    policy_standing_boundary (VerificationPolicy.mk 2 none 3 none)
      (ProofPackage.mk 2 (some "AI.CA") (some 3)) (by decide) (by decide) (by decide)⟩

/-- Claim C6, amended: evaluate never consults maxAttestationAge. At level
TypeWithStanding and above its result is identical for any maxAttestationAge
value, and it accepts exactly when the level, type and attestation count
checks pass, with the count taken over all public attestations of the
commitment regardless of their timestamps. -/
theorem policy_ignores_attestation_age (mn : Nat) (ts : Option (List String)) (mp : Nat)
    (age1 age2 : Option Nat) (pkg : ProofPackage)
    (h2 : TYPE_WITH_STANDING ≤ pkg.level) :
    policyVerify (VerificationPolicy.mk mn ts mp age1) pkg =
      policyVerify (VerificationPolicy.mk mn ts mp age2) pkg ∧
    ((policyVerify (VerificationPolicy.mk mn ts mp age1) pkg).1 = true ↔
      (mn ≤ pkg.level ∧
        typeAllowedCheck (VerificationPolicy.mk mn ts mp age1) pkg = true ∧
        mp ≤ pkg.attestationCount.getD 0)) := by
  constructor
  · rfl
  · by_cases hl : pkg.level < mn <;>
      by_cases htc : typeAllowedCheck (VerificationPolicy.mk mn ts mp age1) pkg = true <;>
      by_cases hc : pkg.attestationCount.getD 0 < mp <;>
      simp [policyVerify, policyErrors, hl, htc, hc, h2] <;>
      omega

/-- Witness for policy_ignores_attestation_age: a package with one attestation
against a policy requiring one, under two different age limits. -/
theorem policy_ignores_attestation_age_witness :
    TYPE_WITH_STANDING ≤ (ProofPackage.mk 2 (some "AI.CA") (some 1)).level ∧
    (policyVerify (VerificationPolicy.mk 2 none 1 (some 10))
        (ProofPackage.mk 2 (some "AI.CA") (some 1)) =
      policyVerify (VerificationPolicy.mk 2 none 1 none)
        (ProofPackage.mk 2 (some "AI.CA") (some 1)) ∧
    ((policyVerify (VerificationPolicy.mk 2 none 1 (some 10))
        (ProofPackage.mk 2 (some "AI.CA") (some 1))).1 = true ↔
      (2 ≤ (ProofPackage.mk 2 (some "AI.CA") (some 1)).level ∧
        typeAllowedCheck (VerificationPolicy.mk 2 none 1 (some 10))
          (ProofPackage.mk 2 (some "AI.CA") (some 1)) = true ∧
        1 ≤ (ProofPackage.mk 2 (some "AI.CA") (some 1)).attestationCount.getD 0))) :=
  ⟨by decide,
    policy_ignores_attestation_age 2 none 1 (some 10) none
      (ProofPackage.mk 2 (some "AI.CA") (some 1)) (by decide)⟩

/-- Counterexample to claim C6 as stated: a policy with maxAttestationAge set
to 10 and minPublicAttestations 1, and a TypeWithStanding package generated
from a registry whose single attestation for the commitment has timestamp 0.
At now = 1000 no attestation lies within the window, yet evaluate accepts. -/
theorem policy_age_window_counterexample :
    (VerificationPolicy.mk 2 none 1 (some 10)).maxAttestationAge = some 10 ∧
    TYPE_WITH_STANDING ≤ (standingPackage [PubAttestation.mk "c7" 257 0 1] "c7" "AI.CA").level ∧
    countWithinWindow [PubAttestation.mk "c7" 257 0 1] "c7" 1000 10 <
      (VerificationPolicy.mk 2 none 1 (some 10)).minPublicAttestations ∧
    (standingPackage [PubAttestation.mk "c7" 257 0 1] "c7" "AI.CA").attestationCount =
      some (getAttestationsFor [PubAttestation.mk "c7" 257 0 1] "c7").length ∧
    (policyVerify (VerificationPolicy.mk 2 none 1 (some 10))
      (standingPackage [PubAttestation.mk "c7" 257 0 1] "c7" "AI.CA")).1 = true := by decide

/-! ## Attestation issuance -/

/-- Claim C5, amended: an authenticated attest call fails invalid_type only
when the claimed type is neither in the fixed table nor an inherited
Object.prototype key; with a truthy lookup it fails forbidden when the type is
outside the allowed type list of the attester; when the type is in the fixed
table and allowed it responds in one message with the signature over
hash(commitment, typeCode), the current Merkle proof of the attester whose
path length equals the tree depth, and the current registry root; an inherited
prototype key that is in the allowed list crashes the route with an internal
error. -/
theorem attest_type_gating (h : Nat → Nat → Nat) (sign : Nat → Nat → Nat) (depth : Nat)
    (k : String) (com : Nat) (t : String) (s : ServerState) (att : Attester)
    (hauth : s.attesters.find? (fun a => a.apiKeyHash == k && !a.revoked) = some att) :
    (typeLookupTruthy t = false → (attestHandler h sign depth k com t s).1 = .invalidType) ∧
    (typeLookupTruthy t = true → att.allowedTypes.contains t = false →
      (attestHandler h sign depth k com t s).1 = .forbidden) ∧
    (∀ ty, lookupType t = some ty → att.allowedTypes.contains t = true →
      (attestHandler h sign depth k com t s).1 =
        .ok (sign att.privKey (h com ty.code)) (getProof h depth s.treeLeaves att.merkleIndex)
          (getRoot h depth s.treeLeaves) ∧
      (getProof h depth s.treeLeaves att.merkleIndex).length = depth) ∧
    (lookupType t = none → typeLookupTruthy t = true → att.allowedTypes.contains t = true →
      (attestHandler h sign depth k com t s).1 = .internalError) := by
  refine ⟨?_, ?_, ?_, ?_⟩
  · intro htr
    simp [attestHandler, hauth, htr]
  · intro htr hcon
    have hcon2 : t ∉ att.allowedTypes := by simpa using hcon
    simp [attestHandler, hauth, htr, hcon2]
  · intro ty hty hcon
    have htr : typeLookupTruthy t = true := by simp [typeLookupTruthy, hty]
    have hcon2 : t ∈ att.allowedTypes := by simpa using hcon
    exact ⟨by simp [attestHandler, hauth, htr, hty, hcon2],
      getProof_length h depth s.treeLeaves att.merkleIndex⟩
  · intro hty htr hcon
    have hcon2 : t ∈ att.allowedTypes := by simpa using hcon
    simp [attestHandler, hauth, htr, hty, hcon2]

/-- Witness for attest_type_gating for the sample attester and claimed type
AI.CA. -/
theorem attest_type_gating_witness :
    sampleState.attesters.find? (fun a => a.apiKeyHash == "ka" && !a.revoked) = some attA ∧
    ((typeLookupTruthy "AI.CA" = false →
        (attestHandler Nat.pair Nat.pair 2 "ka" 7 "AI.CA" sampleState).1 = .invalidType) ∧
     (typeLookupTruthy "AI.CA" = true → attA.allowedTypes.contains "AI.CA" = false →
        (attestHandler Nat.pair Nat.pair 2 "ka" 7 "AI.CA" sampleState).1 = .forbidden) ∧
     (∀ ty, lookupType "AI.CA" = some ty → attA.allowedTypes.contains "AI.CA" = true →
        (attestHandler Nat.pair Nat.pair 2 "ka" 7 "AI.CA" sampleState).1 =
          .ok (Nat.pair attA.privKey (Nat.pair 7 ty.code))
            (getProof Nat.pair 2 sampleState.treeLeaves attA.merkleIndex)
            (getRoot Nat.pair 2 sampleState.treeLeaves) ∧
        (getProof Nat.pair 2 sampleState.treeLeaves attA.merkleIndex).length = 2) ∧
     (lookupType "AI.CA" = none → typeLookupTruthy "AI.CA" = true →
        attA.allowedTypes.contains "AI.CA" = true →
        (attestHandler Nat.pair Nat.pair 2 "ka" 7 "AI.CA" sampleState).1 = .internalError)) :=
  ⟨by decide, attest_type_gating Nat.pair Nat.pair 2 "ka" 7 "AI.CA" sampleState attA (by decide)⟩

/-- Counterexample to claim C5 as stated: the claimed type constructor is
absent from the fixed type table, yet the authenticated attest call is
rejected with forbidden, not invalid_type, because the JS property read
EntityTypes[constructor] hits the inherited Object.prototype entry and passes
the invalid-type guard. -/
theorem attest_type_gating_counterexample :
    sampleState.attesters.find? (fun a => a.apiKeyHash == "ka" && !a.revoked) = some attA ∧
    lookupType "constructor" = none ∧
    (attestHandler Nat.pair Nat.pair 2 "ka" 7 "constructor" sampleState).1 = .forbidden ∧
    (attestHandler Nat.pair Nat.pair 2 "ka" 7 "constructor" sampleState).1 ≠
      .invalidType := by decide

/-! ## Revocation and reindexing -/

theorem find?_setIndex (l : List Attester) (aid x : String) (i : Nat) :
    (setIndex l aid i).find? (fun b => b.id == x) =
      (l.find? (fun b => b.id == x)).map
        (fun a => if a.id == aid then { a with merkleIndex := i } else a) := by
  unfold setIndex
  rw [List.find?_map]
  have hp : ((fun b : Attester => b.id == x) ∘
      (fun a : Attester => if a.id == aid then { a with merkleIndex := i } else a)) =
      (fun b : Attester => b.id == x) := by
    funext a
    by_cases hid : a.id == aid <;> simp [Function.comp, hid]
  rw [hp]

theorem find?_setIndex_ne (l : List Attester) (aid x : String) (i : Nat) (hx : x ≠ aid) :
    (setIndex l aid i).find? (fun b => b.id == x) = l.find? (fun b => b.id == x) := by
  rw [find?_setIndex]
  cases hf : l.find? (fun b => b.id == x) with
  | none => rfl
  | some a =>
      have ha : a.id = x := by simpa using List.find?_some hf
      simp [ha, hx]

theorem find?_setIndex_self (l : List Attester) (aid : String) (i : Nat) :
    (setIndex l aid i).find? (fun b => b.id == aid) =
      (l.find? (fun b => b.id == aid)).map (fun a => { a with merkleIndex := i }) := by
  rw [find?_setIndex]
  cases hf : l.find? (fun b => b.id == aid) with
  | none => rfl
  | some a =>
      have ha : a.id = aid := by simpa using List.find?_some hf
      simp [ha]

theorem find?_applyUpdates_ne (x : String) :
    ∀ (upds : List (Nat × Attester)) (l : List Attester),
      (∀ p ∈ upds, p.2.id ≠ x) →
      (applyUpdates l upds).find? (fun b => b.id == x) = l.find? (fun b => b.id == x)
  | [], _, _ => rfl
  | u :: rest, l, hni => by
      show (applyUpdates (setIndex l u.2.id u.1) rest).find? (fun b => b.id == x) = _
      rw [find?_applyUpdates_ne x rest (setIndex l u.2.id u.1)
        (fun p hp => hni p (List.mem_cons_of_mem u hp))]
      exact find?_setIndex_ne l u.2.id x u.1 (Ne.symm (hni u (List.mem_cons_self u rest)))

theorem find?_applyUpdates_mem :
    ∀ (upds : List (Nat × Attester)) (l : List Attester) (j : Nat) (b : Attester),
      (upds.map (fun p => p.2.id)).Nodup → (j, b) ∈ upds →
      (applyUpdates l upds).find? (fun a => a.id == b.id) =
        (l.find? (fun a => a.id == b.id)).map (fun a => { a with merkleIndex := j })
  | [], _, _, b, _, hmem => absurd hmem (List.not_mem_nil _)
  | u :: rest, l, j, b, hnd, hmem => by
      have hnd2 : (u.2.id :: rest.map (fun p => p.2.id)).Nodup := by simpa using hnd
      show (applyUpdates (setIndex l u.2.id u.1) rest).find? (fun a => a.id == b.id) = _
      rcases List.mem_cons.mp hmem with heq | hmem2
      · have hni : ∀ p ∈ rest, p.2.id ≠ b.id := by
          intro p hp habs
          have h1 : u.2.id ∉ rest.map (fun p => p.2.id) := (List.nodup_cons.mp hnd2).1
          have h2 : b.id ∈ rest.map (fun p => p.2.id) := by
            rw [← habs]
            exact List.mem_map_of_mem _ hp
          rw [show u.2.id = b.id from by rw [← heq]] at h1
          exact h1 h2
        rw [find?_applyUpdates_ne b.id rest (setIndex l u.2.id u.1) hni, ← heq]
        exact find?_setIndex_self l b.id j
      · have hne : u.2.id ≠ b.id := by
          intro habs
          have h1 : u.2.id ∉ rest.map (fun p => p.2.id) := (List.nodup_cons.mp hnd2).1
          have h2 : b.id ∈ rest.map (fun p => p.2.id) := List.mem_map_of_mem _ hmem2
          rw [habs] at h1
          exact h1 h2
        rw [find?_applyUpdates_mem rest (setIndex l u.2.id u.1) j b
          (List.nodup_cons.mp hnd2).2 hmem2]
        rw [find?_setIndex_ne l u.2.id b.id u.1 (Ne.symm hne)]

theorem find?_byId_of_nodup :
    ∀ (l : List Attester), (l.map (fun a => a.id)).Nodup → ∀ a ∈ l,
      l.find? (fun b => b.id == a.id) = some a
  | [], _, a, ha => absurd ha (List.not_mem_nil a)
  | x :: xs, hnd, a, ha => by
      have hnd2 : (x.id :: xs.map (fun a => a.id)).Nodup := by simpa using hnd
      by_cases hx : x.id == a.id
      · rw [@List.find?_cons_of_pos Attester (fun b => b.id == a.id) x xs hx]
        rcases List.mem_cons.mp ha with rfl | hxs
        · rfl
        · exfalso
          have h1 : x.id ∉ xs.map (fun a => a.id) := (List.nodup_cons.mp hnd2).1
          have h2 : a.id ∈ xs.map (fun a => a.id) := List.mem_map_of_mem _ hxs
          rw [show x.id = a.id from by simpa using hx] at h1
          exact h1 h2
      · rw [@List.find?_cons_of_neg Attester (fun b => b.id == a.id) x xs hx]
        rcases List.mem_cons.mp ha with rfl | hxs
        · exact absurd (by simp) hx
        · exact find?_byId_of_nodup xs (List.nodup_cons.mp hnd2).2 a hxs

theorem mem_setIndex (l : List Attester) (aid : String) (i : Nat) (a : Attester)
    (ha : a ∈ setIndex l aid i) :
    ∃ b ∈ l, a = if b.id == aid then { b with merkleIndex := i } else b := by
  unfold setIndex at ha
  obtain ⟨b, hb, he⟩ := List.mem_map.mp ha
  exact ⟨b, hb, he.symm⟩

theorem applyUpdates_id_revoked :
    ∀ (upds : List (Nat × Attester)) (l : List Attester) (a : Attester),
      a ∈ applyUpdates l upds → ∃ b ∈ l, a.id = b.id ∧ a.revoked = b.revoked
  | [], _, a, ha => ⟨a, ha, rfl, rfl⟩
  | u :: rest, l, a, ha => by
      obtain ⟨b, hb, hid, hrev⟩ := applyUpdates_id_revoked rest (setIndex l u.2.id u.1) a ha
      obtain ⟨c, hc, he⟩ := mem_setIndex l u.2.id u.1 b hb
      have hbc : b.id = c.id ∧ b.revoked = c.revoked := by
        rw [he]
        split <;> exact ⟨rfl, rfl⟩
      exact ⟨c, hc, hid.trans hbc.1, hrev.trans hbc.2⟩

theorem markRevoked_ids (ats : List Attester) (id : String) :
    (markRevoked ats id).map (fun a => a.id) = ats.map (fun a => a.id) := by
  unfold markRevoked
  rw [List.map_map]
  congr 1
  funext a
  by_cases hid : a.id == id <;> simp [Function.comp, hid]

theorem markRevoked_revoked_of_id (ats : List Attester) (id : String) (b : Attester)
    (hb : b ∈ markRevoked ats id) (hbid : b.id = id) : b.revoked = true := by
  unfold markRevoked at hb
  obtain ⟨c, _, he⟩ := List.mem_map.mp hb
  by_cases hcid : c.id == id
  · rw [← he]
    simp [hcid]
  · exfalso
    rw [← he] at hbid
    simp [hcid] at hbid
    exact hcid (by simp [hbid])

theorem filter_markRevoked :
    ∀ (ats : List Attester) (id : String),
      (markRevoked ats id).filter (fun a => !a.revoked) =
        ats.filter (fun a => !(a.id == id) && !a.revoked)
  | [], _ => rfl
  | a :: rest, id => by
      show ((if a.id == id then { a with revoked := true } else a) ::
        markRevoked rest id).filter (fun a => !a.revoked) = _
      by_cases hid : a.id == id
      · simp [hid, filter_markRevoked rest id]
      · by_cases hrev : a.revoked <;> simp [hid, hrev, filter_markRevoked rest id]

theorem rebuildLeaves_eq_map (h : Nat → Nat → Nat) (act : List Attester) :
    rebuildLeaves h act = act.map (fun a => h a.pubX a.pubY) := by
  have gen : ∀ (l : List Attester) (init : List Nat),
      l.foldl (fun lvs a => (addLeaf lvs (h a.pubX a.pubY)).2) init =
        init ++ l.map (fun a => h a.pubX a.pubY) := by
    intro l
    induction l with
    | nil => intro init; simp
    | cons a rest ih =>
        intro init
        rw [show List.foldl (fun lvs b => (addLeaf lvs (h b.pubX b.pubY)).2) init (a :: rest) =
          List.foldl (fun lvs b => (addLeaf lvs (h b.pubX b.pubY)).2)
            (init ++ [h a.pubX a.pubY]) rest from rfl]
        rw [ih (init ++ [h a.pubX a.pubY]), List.append_assoc]
        rfl
  simpa [rebuildLeaves] using gen act []

theorem activeSorted_perm (ats : List Attester) (id : String) :
    (activeSorted (markRevoked ats id)).Perm
      (ats.filter (fun a => !(a.id == id) && !a.revoked)) := by
  show (List.insertionSort byIndexLe
    ((markRevoked ats id).filter (fun a => !a.revoked))).Perm _
  rw [filter_markRevoked ats id]
  exact List.perm_insertionSort byIndexLe _

theorem activeSorted_nodup_ids (ats : List Attester) (id : String)
    (hnodup : (ats.map (fun a => a.id)).Nodup) :
    ((activeSorted (markRevoked ats id)).map (fun a => a.id)).Nodup := by
  have hperm := List.perm_insertionSort byIndexLe
    ((markRevoked ats id).filter (fun a => !a.revoked))
  have hmids : ((markRevoked ats id).map (fun a => a.id)).Nodup := by
    rw [markRevoked_ids]
    exact hnodup
  have hfilt : (((markRevoked ats id).filter (fun a => !a.revoked)).map
      (fun a => a.id)).Nodup :=
    List.Nodup.sublist (List.Sublist.map _ (List.filter_sublist _)) hmids
  exact ((hperm.map (fun a => a.id)).nodup_iff).mpr hfilt

theorem activeSorted_mem (ats : List Attester) (id : String) (a : Attester)
    (ha : a ∈ activeSorted (markRevoked ats id)) : a ∈ markRevoked ats id := by
  have hperm := List.perm_insertionSort byIndexLe
    ((markRevoked ats id).filter (fun a => !a.revoked))
  have := hperm.mem_iff.mp ha
  exact (List.mem_filter.mp this).1

/-- Claim C4: after a completed revoke of an active attester, the revoked id is
gone from the proof route, every survivor listed in the order of the previous
indices carries the dense zero-based index equal to its position, the
survivors are exactly the previously active attesters other than the revoked
one, the tree and the durable root are recomputed over exactly the survivors,
and with no survivor left the root equals the precomputed empty-tree zero
value. -/
theorem revoke_reindex (h : Nat → Nat → Nat) (depth : Nat) (id : String) (s : ServerState)
    (hnodup : (s.attesters.map (fun a => a.id)).Nodup)
    (hfound : (s.attesters.find? (fun a => a.id == id && !a.revoked)).isSome = true) :
    revokePost h depth id s := by
  obtain ⟨a0, ha0⟩ := Option.isSome_iff_exists.mp hfound
  have hs : (revokeHandler h depth id s).2 =
      { s with
          attesters := applyUpdates (markRevoked s.attesters id)
            (activeSorted (markRevoked s.attesters id)).enum,
          treeLeaves := rebuildLeaves h (activeSorted (markRevoked s.attesters id)),
          registryRoot :=
            getRoot h depth (rebuildLeaves h (activeSorted (markRevoked s.attesters id))),
          auditLog := s.auditLog ++ [("attester_revoked", id)] } := by
    simp [revokeHandler, ha0]
  have hmids : ((markRevoked s.attesters id).map (fun a => a.id)).Nodup := by
    rw [markRevoked_ids]
    exact hnodup
  refine ⟨?_, ?_, activeSorted_perm s.attesters id, ?_, ?_, ?_⟩
  · -- the revoked id is gone from the proof route
    rw [proofRoute, hs]
    have hnone : (applyUpdates (markRevoked s.attesters id)
        (activeSorted (markRevoked s.attesters id)).enum).find?
          (fun a => a.id == id && !a.revoked) = none := by
      rw [List.find?_eq_none]
      intro x hx
      obtain ⟨b, hb, hid, hrev⟩ := applyUpdates_id_revoked _ _ x hx
      by_cases hxid : x.id = id
      · have hbid : b.id = id := by rw [← hid]; exact hxid
        have hbrev : b.revoked = true := markRevoked_revoked_of_id s.attesters id b hb hbid
        have hxrev : x.revoked = true := hrev.trans hbrev
        simp [hxrev]
      · simp [hxid]
    rw [hnone]
  · -- survivors carry dense indices in previous-index order
    intro i hi
    have hil : i < (activeSorted (markRevoked s.attesters id)).enum.length := by
      simpa [List.enum_length] using hi
    have hgd : (activeSorted (markRevoked s.attesters id)).getD i dfltAttester =
        (activeSorted (markRevoked s.attesters id))[i] :=
      List.getD_eq_getElem _ dfltAttester hi
    have hmem : (i, (activeSorted (markRevoked s.attesters id))[i]) ∈
        (activeSorted (markRevoked s.attesters id)).enum := by
      have he := List.getElem_enum (activeSorted (markRevoked s.attesters id)) i hil
      rw [← he]
      exact List.getElem_mem hil
    have hnd_enum : (((activeSorted (markRevoked s.attesters id)).enum.map
        (fun p => p.2.id))).Nodup := by
      have hcomp : (activeSorted (markRevoked s.attesters id)).enum.map (fun p => p.2.id) =
          (activeSorted (markRevoked s.attesters id)).map (fun a => a.id) := by
        rw [show (fun p : Nat × Attester => p.2.id) =
          ((fun a : Attester => a.id) ∘ Prod.snd) from rfl]
        rw [← List.map_map, List.enum_map_snd]
      rw [hcomp]
      exact activeSorted_nodup_ids s.attesters id hnodup
    have happ := find?_applyUpdates_mem
      (activeSorted (markRevoked s.attesters id)).enum (markRevoked s.attesters id) i
      ((activeSorted (markRevoked s.attesters id))[i]) hnd_enum hmem
    have hfind : (markRevoked s.attesters id).find?
        (fun a => a.id == ((activeSorted (markRevoked s.attesters id))[i]).id) =
          some ((activeSorted (markRevoked s.attesters id))[i]) :=
      find?_byId_of_nodup (markRevoked s.attesters id) hmids _
        (activeSorted_mem s.attesters id _ (List.getElem_mem hi))
    rw [hs, hgd]
    rw [happ, hfind]
    rfl
  · -- tree leaves recomputed over exactly the survivors
    rw [hs]
    exact rebuildLeaves_eq_map h _
  · -- durable root recomputed over exactly the survivors
    rw [hs]
    rw [rebuildLeaves_eq_map h _]
  · -- empty survivor set reverts the root to the zero value
    intro hact
    rw [hs]
    simp [hact, rebuildLeaves, getRoot]

/-- Witness for revoke_reindex: revoking attester a of the two-attester sample
state. -/
theorem revoke_reindex_witness :
    (sampleState.attesters.map (fun a => a.id)).Nodup ∧
    (sampleState.attesters.find? (fun a => a.id == "a" && !a.revoked)).isSome = true ∧
    revokePost Nat.pair 2 "a" sampleState :=
  ⟨by decide, by decide, revoke_reindex Nat.pair 2 "a" sampleState (by decide) (by decide)⟩

end EI
